import Mathlib

/-!
Verification of the bybitmybot trading bot against its specification.

Shallow embedding of the Python sources:
* `src/strategies/base.py` / `src/strategies/simple_levels.py` — the signal
  engine (`SimpleLevelsStrategy`): `check_signal`, `update_levels`, `reset`,
  `_emit_signal`.
* `src/strategy.py` — the legacy fallback `TradingStrategy.check_signal`.
* `src/connectors/base.py` — callback registry and `_emit_event`.
* `src/connectors/bybit/websocket.py` — `is_healthy`, `_connection_loop`
  backoff, `_handle_message` / `_is_ticker_data` / `_handle_ticker_data`.
* `src/connectors/telegram/bot.py` — `get_stats` token masking.

Python floats are modelled as rationals (every float value is an exact
rational, and the code only compares and copies prices, so no rounding can
occur).  Raising an exception in a method that mutates `self` is modelled by
returning the (possibly partially mutated) state together with an
`Option PyError`: `none` means normal return, `some e` means the exception
`e` escaped the method, leaving `self` in the returned state.
-/

namespace BybitBot

/-- The two signal kinds `"BUY"` and `"SELL"` of the strategy code. -/
inductive Signal
  | buy
  | sell
  deriving DecidableEq, Repr

/-- Python exceptions raised by the embedded code. -/
inductive PyError
  | valueError (msg : String)
  deriving DecidableEq, Repr

/-- Mutable state of `SimpleLevelsStrategy` (fields set in
`BaseStrategy.__init__` and `SimpleLevelsStrategy.__init__`; the logger,
name and `created_at` timestamp are not modelled — no claim mentions them). -/
structure StrategyState where
  buy_level : ℚ
  sell_level : ℚ
  last_signal : Option Signal
  last_price : Option ℚ
  signal_count : ℕ
  deriving DecidableEq, Repr

/-- `BaseStrategy._emit_signal` (src/strategies/base.py lines 59-66):
sets `last_signal`, `last_price`, increments `signal_count`, returns the
signal. -/
def emit_signal (st : StrategyState) (signal : Signal) (price : ℚ) :
    Signal × StrategyState :=
  (signal,
    { st with
      last_signal := some signal
      last_price := some price
      signal_count := st.signal_count + 1 })

/-- `SimpleLevelsStrategy.check_signal` (src/strategies/simple_levels.py
lines 32-52): classify `price` as BUY above `buy_level`, SELL below
`sell_level`, otherwise no classification; emit only when the
classification exists and differs from `last_signal`. -/
def check_signal (st : StrategyState) (price : ℚ) :
    Option Signal × StrategyState :=
  let current_signal : Option Signal :=
    if price > st.buy_level then some Signal.buy
    else if price < st.sell_level then some Signal.sell
    else none
  match current_signal with
  | some s =>
      if st.last_signal ≠ some s then
        let (sig, st') := emit_signal st s price
        (some sig, st')
      else
        (none, st)
  | none => (none, st)

/-- `BaseStrategy.reset` (src/strategies/base.py lines 52-57). -/
def reset (st : StrategyState) : StrategyState :=
  { st with last_signal := none, last_price := none, signal_count := 0 }

/-- `SimpleLevelsStrategy.update_levels` (src/strategies/simple_levels.py
lines 63-77): raise `ValueError` when `buy_level <= sell_level`, else assign
both levels and call `reset`. -/
def update_levels (st : StrategyState) (buy_level sell_level : ℚ) :
    StrategyState × Option PyError :=
  if buy_level ≤ sell_level then
    (st, some (PyError.valueError "BUY_LEVEL должен быть больше SELL_LEVEL"))
  else
    (reset { st with buy_level := buy_level, sell_level := sell_level }, none)

/-- State of the legacy fallback `TradingStrategy` (src/strategy.py lines
21-25); its levels are the module constants `BUY_LEVEL`/`SELL_LEVEL`. -/
structure TradingState where
  last_signal : Option Signal
  last_price : Option ℚ
  signal_count : ℕ
  deriving DecidableEq, Repr

/-- `TradingStrategy.check_signal` (src/strategy.py lines 27-50), with the
config constants `BUY_LEVEL`/`SELL_LEVEL` passed as parameters `B`/`S`. -/
def TradingStrategy.check_signal (B S : ℚ) (st : TradingState) (price : ℚ) :
    Option Signal × TradingState :=
  let current_signal : Option Signal :=
    if price > B then some Signal.buy
    else if price < S then some Signal.sell
    else none
  match current_signal with
  | some s =>
      if st.last_signal ≠ some s then
        (some s,
          { last_signal := some s
            signal_count := st.signal_count + 1
            last_price := some price })
      else
        (none, st)
  | none => (none, st)

/-- Feed a list of prices one at a time to a step function, collecting the
emitted (non-`None`) signals in order. -/
def runEmits {σ : Type} (step : σ → ℚ → Option Signal × σ) :
    σ → List ℚ → List Signal
  | _, [] => []
  | st, p :: ps =>
      match step st p with
      | (some s, st') => s :: runEmits step st' ps
      | (none, st') => runEmits step st' ps

/-- The emitted-signal stream of `SimpleLevelsStrategy`. -/
def run_signals (st : StrategyState) (prices : List ℚ) : List Signal :=
  runEmits check_signal st prices

/-- The emitted-signal stream of the fallback `TradingStrategy`. -/
def run_signals_fallback (B S : ℚ) (st : TradingState) (prices : List ℚ) :
    List Signal :=
  runEmits (TradingStrategy.check_signal B S) st prices

/-! ### Generic no-duplicate argument

Both engines obey the same discipline: a step either emits a signal `s`
with `last_signal` previously different from `some s` and afterwards equal
to `some s`, or emits nothing and leaves `last_signal` unchanged.  That
discipline forces the emitted stream to alternate. -/

/-- The last-signal discipline of a step function. -/
def LastSignalStep {σ : Type} (lastOf : σ → Option Signal)
    (step : σ → ℚ → Option Signal × σ) : Prop :=
  ∀ st p,
    match step st p with
    | (some s, st') => lastOf st ≠ some s ∧ lastOf st' = some s
    | (none, st') => lastOf st' = lastOf st

theorem check_signal_lastStep :
    LastSignalStep (·.last_signal) check_signal := by
  intro st p
  unfold check_signal emit_signal
  dsimp only
  by_cases hb : p > st.buy_level
  · simp only [hb, if_true]
    by_cases hl : st.last_signal ≠ some Signal.buy
    · simp [hl]
    · simp [hl]
  · simp only [hb, if_false]
    by_cases hsl : p < st.sell_level
    · simp only [hsl, if_true]
      by_cases hl : st.last_signal ≠ some Signal.sell
      · simp [hl]
      · simp [hl]
    · simp [hsl]

theorem trading_check_signal_lastStep (B S : ℚ) :
    LastSignalStep (·.last_signal) (TradingStrategy.check_signal B S) := by
  intro st p
  unfold TradingStrategy.check_signal
  dsimp only
  by_cases hb : p > B
  · simp only [hb, if_true]
    by_cases hl : st.last_signal ≠ some Signal.buy
    · simp [hl]
    · simp [hl]
  · simp only [hb, if_false]
    by_cases hsl : p < S
    · simp only [hsl, if_true]
      by_cases hl : st.last_signal ≠ some Signal.sell
      · simp [hl]
      · simp [hl]
    · simp [hsl]

/-- Strengthened alternation invariant: the emitted stream has no equal
adjacent elements, and its head differs from the starting `last_signal`. -/
theorem runEmits_chain {σ : Type} (lastOf : σ → Option Signal)
    (step : σ → ℚ → Option Signal × σ) (hstep : LastSignalStep lastOf step) :
    ∀ (prices : List ℚ) (st : σ),
      List.Chain' (· ≠ ·) (runEmits step st prices) ∧
      ∀ s, (runEmits step st prices).head? = some s → lastOf st ≠ some s := by
  intro prices
  induction prices with
  | nil => intro st; simp [runEmits]
  | cons p ps ih =>
      intro st
      have hs := hstep st p
      unfold runEmits
      cases hstep_eq : step st p with
      | mk sig st' =>
          rw [hstep_eq] at hs
          cases sig with
          | none =>
              dsimp only
              rcases ih st' with ⟨hchain, hhead⟩
              refine ⟨hchain, ?_⟩
              intro s hhd
              rw [← hs]
              exact hhead s hhd
          | some s =>
              dsimp only
              rcases ih st' with ⟨hchain, hhead⟩
              rcases hs with ⟨hne, hlast⟩
              constructor
              · apply List.chain'_cons'.mpr
                refine ⟨?_, hchain⟩
                intro y hy
                have := hhead y hy
                rw [hlast] at this
                intro hcontra
                exact this (by rw [hcontra])
              · intro t ht
                simp only [List.head?_cons, Option.some.injEq] at ht
                rw [← ht]
                exact hne

/-- C1: for every finite price sequence fed to `check_signal` — of the
simple-levels engine (any levels, any starting state) and of the legacy
fallback engine — the stream of emitted signals never contains two equal
consecutive kinds. -/
theorem signals_never_duplicate (st : StrategyState) (tst : TradingState)
    (B S : ℚ) (prices : List ℚ) :
    List.Chain' (· ≠ ·) (run_signals st prices) ∧
    List.Chain' (· ≠ ·) (run_signals_fallback B S tst prices) :=
  ⟨(runEmits_chain _ _ check_signal_lastStep prices st).1,
   (runEmits_chain _ _ (trading_check_signal_lastStep B S) prices tst).1⟩

/-- C2: a price in the dead zone `sell_level ≤ p ≤ buy_level`, the
boundaries included, emits nothing and leaves the whole state unchanged. -/
theorem dead_zone_no_signal (st : StrategyState) (p : ℚ)
    (hlo : st.sell_level ≤ p) (hhi : p ≤ st.buy_level) :
    check_signal st p = (none, st) := by
  unfold check_signal
  have hb : ¬ p > st.buy_level := not_lt.mpr hhi
  have hs : ¬ p < st.sell_level := not_lt.mpr hlo
  simp [hb, hs]

/-- Witness for C2 at levels 27000/26000, price 26500 (and at the exact
boundaries 27000 and 26000). -/
theorem dead_zone_no_signal_witness :
    ((26000 : ℚ) ≤ 26500 ∧ (26500 : ℚ) ≤ 27000) ∧
    check_signal ⟨27000, 26000, none, none, 0⟩ 26500 =
      (none, ⟨27000, 26000, none, none, 0⟩) ∧
    check_signal ⟨27000, 26000, none, none, 0⟩ 27000 =
      (none, ⟨27000, 26000, none, none, 0⟩) ∧
    check_signal ⟨27000, 26000, none, none, 0⟩ 26000 =
      (none, ⟨27000, 26000, none, none, 0⟩) :=
  ⟨⟨by norm_num, by norm_num⟩,
   dead_zone_no_signal _ _ (by norm_num) (by norm_num),
   dead_zone_no_signal _ _ (by norm_num) (by norm_num),
   dead_zone_no_signal _ _ (by norm_num) (by norm_num)⟩

/-- C3 counterexample: `update_levels` with valid levels (28000 > 26500)
does NOT leave `signal_count` unchanged — the source calls
`BaseStrategy.reset`, which zeroes it: from a state with 3 recorded
signals, the count after the update is 0, not 3. -/
theorem update_levels_resets_count :
    (28000 : ℚ) > 26500 ∧
    (update_levels ⟨27000, 26000, some Signal.buy, some 27100, 3⟩
        28000 26500).1.signal_count ≠ 3 := by
  constructor
  · norm_num
  · unfold update_levels reset
    norm_num

/-- C3 amended: for `buy > sell`, `update_levels` succeeds, replaces both
levels and resets `last_signal` to none, `last_price` to null AND
`signal_count` to 0 (the full `reset`). -/
theorem update_levels_ok (st : StrategyState) (buy sell : ℚ)
    (h : sell < buy) :
    update_levels st buy sell =
      ({ buy_level := buy, sell_level := sell, last_signal := none,
         last_price := none, signal_count := 0 }, none) := by
  unfold update_levels reset
  rw [if_neg (not_le.mpr h)]

/-- Witness for C3 amended at levels 28000/26500. -/
theorem update_levels_ok_witness :
    (26500 : ℚ) < 28000 ∧
    update_levels ⟨27000, 26000, some Signal.buy, some 27100, 3⟩
        28000 26500 =
      ({ buy_level := 28000, sell_level := 26500, last_signal := none,
         last_price := none, signal_count := 0 }, none) :=
  ⟨by norm_num,
   update_levels_ok ⟨27000, 26000, some Signal.buy, some 27100, 3⟩
     28000 26500 (by norm_num)⟩

/-- C4 counterexample: `check_signal` performs no price validation and no
`InvalidPriceError` exists anywhere in the code (src/core/exceptions.py
defines none): the negative price −1 against levels 27000/26000 is
classified SELL and emits a signal, mutating the state. -/
theorem negative_price_emits :
    check_signal ⟨27000, 26000, none, none, 0⟩ (-1) =
      (some Signal.sell,
       ⟨27000, 26000, some Signal.sell, some (-1), 1⟩) := by
  unfold check_signal emit_signal
  norm_num
  simp

/-- C4 amended: `check_signal` never rejects any input: a negative price
below `sell_level` (with coherent levels) is handled by the ordinary
classification rules — SELL emitted iff `last_signal ≠ SELL` — and no
error is ever raised. -/
theorem negative_price_classified (st : StrategyState) (p : ℚ)
    (_hneg : p < 0) (hlow : p < st.sell_level)
    (hlev : st.sell_level ≤ st.buy_level) :
    check_signal st p =
      if st.last_signal = some Signal.sell then (none, st)
      else (some Signal.sell,
        { st with last_signal := some Signal.sell, last_price := some p,
                  signal_count := st.signal_count + 1 }) := by
  unfold check_signal emit_signal
  have hb : ¬ p > st.buy_level := not_lt.mpr (le_of_lt (lt_of_lt_of_le hlow hlev))
  simp only [hb, if_false, hlow, if_true]
  by_cases hl : st.last_signal = some Signal.sell
  · simp [hl]
  · simp [hl]

/-- Witness for C4 amended at price −1, levels 27000/26000. -/
theorem negative_price_classified_witness :
    ((-1 : ℚ) < 0 ∧ (-1 : ℚ) < 26000 ∧ (26000 : ℚ) ≤ 27000) ∧
    check_signal ⟨27000, 26000, none, none, 0⟩ (-1) =
      (some Signal.sell,
       ⟨27000, 26000, some Signal.sell, some (-1), 1⟩) := by
  refine ⟨⟨by norm_num, by norm_num, by norm_num⟩, ?_⟩
  have := negative_price_classified ⟨27000, 26000, none, none, 0⟩ (-1)
    (by norm_num) (by norm_num) (by norm_num)
  rw [this]
  simp

/-- C5: `update_levels` with `buy ≤ sell` raises (the code's `ValueError`,
the spec's `InvalidConfigurationError`) before any assignment, leaving
every field of the prior state unchanged. -/
theorem update_levels_invalid (st : StrategyState) (buy sell : ℚ)
    (h : buy ≤ sell) :
    update_levels st buy sell =
      (st, some (PyError.valueError "BUY_LEVEL должен быть больше SELL_LEVEL")) := by
  unfold update_levels
  rw [if_pos h]

/-- Witness for C5 at buy 25000 ≤ sell 26000. -/
theorem update_levels_invalid_witness :
    (25000 : ℚ) ≤ 26000 ∧
    update_levels ⟨27000, 26000, some Signal.buy, some 27100, 3⟩
        25000 26000 =
      (⟨27000, 26000, some Signal.buy, some 27100, 3⟩,
       some (PyError.valueError "BUY_LEVEL должен быть больше SELL_LEVEL")) :=
  ⟨by norm_num,
   update_levels_invalid _ 25000 26000 (by norm_num)⟩

/-! ### Bybit WebSocket connector (src/connectors/bybit/websocket.py)

Timestamps (`datetime.now()`) are modelled as integer seconds.  A Python
`timedelta`'s `.seconds` attribute is the normalized seconds-within-a-day
component, i.e. `(now - t).emod 86400` at second granularity. -/

/-- Mutable state of `BybitWebSocketConnector` (the `running` flag and
`reconnect_count` come from `BaseWebSocketConnector.__init__`,
`is_connected` from `BaseConnector.__init__`; config parameters held in
other fields are passed to the functions that read them). -/
structure BybitState where
  running : Bool
  is_connected : Bool
  consecutive_errors : ℕ
  reconnect_count : ℕ
  last_update : Option ℤ
  total_messages : ℕ
  last_price : Option ℚ
  symbol : String
  deriving Repr

/-- `self.max_consecutive_errors = 5` (src/connectors/bybit/websocket.py
line 27). -/
def max_consecutive_errors : ℕ := 5

/-- Outcome of one `_handle_websocket_connection()` call inside
`_connection_loop`: it either returned normally (the receive loop ended by
`break` after a clean close or failed ping) or raised an exception. -/
inductive SessionOutcome
  | ok
  | err
  deriving DecidableEq, Repr

/-- One iteration of `_connection_loop` (src/connectors/bybit/websocket.py
lines 73-98) after `_handle_websocket_connection` finished with the given
outcome: returns the new state and the `asyncio.sleep` duration performed,
if any. -/
def connection_loop_iter (reconnect_delay : ℕ) (st : BybitState)
    (o : SessionOutcome) : BybitState × Option ℕ :=
  match o with
  | SessionOutcome.ok => ({ st with consecutive_errors := 0 }, none)
  | SessionOutcome.err =>
      if st.running then
        let ce := st.consecutive_errors + 1
        let rc := st.reconnect_count + 1
        let delay := min (reconnect_delay * ce) 60
        if ce ≥ max_consecutive_errors then
          ({ st with is_connected := false, consecutive_errors := 0,
                     reconnect_count := rc }, some 120)
        else
          ({ st with is_connected := false, consecutive_errors := ce,
                     reconnect_count := rc }, some delay)
      else (st, none)

/-- `_connection_loop` over a list of session outcomes, collecting the
sequence of backoff sleeps. -/
def connection_loop (reconnect_delay : ℕ) :
    BybitState → List SessionOutcome → BybitState × List ℕ
  | st, [] => (st, [])
  | st, o :: os =>
      let (st', sleep) := connection_loop_iter reconnect_delay st o
      let (st'', sleeps) := connection_loop reconnect_delay st' os
      (st'', sleep.toList ++ sleeps)

/-- C6: (i) after the n-th consecutive failure with n below the ceiling the
backoff sleep is exactly `min(reconnect_delay * n, 60)`; (ii) when the
counter reaches the ceiling 5 the sleep is the 120 s cooldown and the
counter is reset to 0; (iii) the sleep is monotonically non-decreasing in
the consecutive-failure count; (iv) after a successful session the next
failure sleeps the base delay again. -/
theorem backoff_spec (reconnect_delay : ℕ) (hd : reconnect_delay ≤ 60) :
    (∀ st : BybitState, st.running = true → st.consecutive_errors + 1 < 5 →
      connection_loop_iter reconnect_delay st SessionOutcome.err =
        ({ st with is_connected := false,
                   consecutive_errors := st.consecutive_errors + 1,
                   reconnect_count := st.reconnect_count + 1 },
         some (min (reconnect_delay * (st.consecutive_errors + 1)) 60))) ∧
    (∀ st : BybitState, st.running = true → st.consecutive_errors = 4 →
      connection_loop_iter reconnect_delay st SessionOutcome.err =
        ({ st with is_connected := false, consecutive_errors := 0,
                   reconnect_count := st.reconnect_count + 1 },
         some 120)) ∧
    (∀ st st' : BybitState, st.running = true → st'.running = true →
      st.consecutive_errors ≤ st'.consecutive_errors →
      ∀ s s',
        (connection_loop_iter reconnect_delay st SessionOutcome.err).2 = some s →
        (connection_loop_iter reconnect_delay st' SessionOutcome.err).2 = some s' →
        s ≤ s') ∧
    (∀ st : BybitState, st.running = true →
      (connection_loop reconnect_delay st
        [SessionOutcome.ok, SessionOutcome.err]).2 = [reconnect_delay]) := by
  refine ⟨?_, ?_, ?_, ?_⟩
  · intro st hr hce
    unfold connection_loop_iter
    rw [hr, if_pos rfl]
    simp only [max_consecutive_errors]
    rw [if_neg (by omega)]
  · intro st hr hce
    unfold connection_loop_iter
    rw [hr, if_pos rfl]
    simp only [max_consecutive_errors, hce]
    rw [if_pos (by omega)]
  · intro st st' hr hr' hle s s' hs hs'
    unfold connection_loop_iter at hs hs'
    rw [hr, if_pos rfl] at hs
    rw [hr', if_pos rfl] at hs'
    simp only [max_consecutive_errors] at hs hs'
    by_cases h1 : st.consecutive_errors + 1 ≥ 5 <;>
      by_cases h2 : st'.consecutive_errors + 1 ≥ 5
    · rw [if_pos h1] at hs; rw [if_pos h2] at hs'
      simp only [Option.some.injEq] at hs hs'
      omega
    · omega
    · rw [if_neg h1] at hs; rw [if_pos h2] at hs'
      simp only [Option.some.injEq] at hs hs'
      have : s ≤ 60 := by rw [← hs]; exact min_le_right _ _
      omega
    · rw [if_neg h1] at hs; rw [if_neg h2] at hs'
      simp only [Option.some.injEq] at hs hs'
      rw [← hs, ← hs']
      exact min_le_min (Nat.mul_le_mul_left _ (by omega)) le_rfl
  · intro st hr
    obtain ⟨running, conn, ce, rc, lu, tm, lp, sym⟩ := st
    dsimp only at hr
    subst hr
    simp only [connection_loop, connection_loop_iter, max_consecutive_errors]
    norm_num
    exact hd

/-- Witness for C6 at base delay 5 s and a freshly connected state. -/
theorem backoff_spec_witness :
    (5 : ℕ) ≤ 60 ∧
    connection_loop_iter 5
        { running := true, is_connected := true, consecutive_errors := 0,
          reconnect_count := 0, last_update := none, total_messages := 0,
          last_price := none, symbol := "BTCUSDT" } SessionOutcome.err =
      ({ running := true, is_connected := false, consecutive_errors := 1,
         reconnect_count := 1, last_update := none, total_messages := 0,
         last_price := none, symbol := "BTCUSDT" }, some 5) ∧
    connection_loop_iter 5
        { running := true, is_connected := false, consecutive_errors := 4,
          reconnect_count := 4, last_update := none, total_messages := 0,
          last_price := none, symbol := "BTCUSDT" } SessionOutcome.err =
      ({ running := true, is_connected := false, consecutive_errors := 0,
         reconnect_count := 5, last_update := none, total_messages := 0,
         last_price := none, symbol := "BTCUSDT" }, some 120) ∧
    (connection_loop 5
        { running := true, is_connected := true, consecutive_errors := 3,
          reconnect_count := 3, last_update := none, total_messages := 0,
          last_price := none, symbol := "BTCUSDT" }
        [SessionOutcome.ok, SessionOutcome.err]).2 = [5] := by
  refine ⟨by norm_num, ?_, ?_, ?_⟩
  · have h := (backoff_spec 5 (by norm_num)).1
      { running := true, is_connected := true, consecutive_errors := 0,
        reconnect_count := 0, last_update := none, total_messages := 0,
        last_price := none, symbol := "BTCUSDT" } rfl (by norm_num)
    simpa using h
  · have h := (backoff_spec 5 (by norm_num)).2.1
      { running := true, is_connected := false, consecutive_errors := 4,
        reconnect_count := 4, last_update := none, total_messages := 0,
        last_price := none, symbol := "BTCUSDT" } rfl rfl
    simpa using h
  · exact (backoff_spec 5 (by norm_num)).2.2.2
      { running := true, is_connected := true, consecutive_errors := 3,
        reconnect_count := 3, last_update := none, total_messages := 0,
        last_price := none, symbol := "BTCUSDT" } rfl

/-- `BybitWebSocketConnector.is_healthy` (src/connectors/bybit/websocket.py
lines 56-69).  `(datetime.now() - self.last_update).seconds` is the
seconds-within-day component of the timedelta, `(now - t).emod 86400`. -/
def is_healthy (st : BybitState) (now : ℤ) : Bool :=
  if ¬ st.running then false
  else if ¬ st.is_connected then false
  else
    match st.last_update with
    | some t => decide ((now - t).emod 86400 < 300)
    | none => false

/-- C7 failing input: the connector is running, connected, and last
received a message exactly one day (86400 s) ago — staleness far exceeds
the 300 s window, yet `is_healthy` returns `true`, because the code reads
`timedelta.seconds` (the within-day component, here 0) instead of
`total_seconds()`.  The healthy parts of the claim (false when not
running / not connected / never received) also shown. -/
theorem is_healthy_seconds_bug :
    is_healthy
        { running := true, is_connected := true, consecutive_errors := 0,
          reconnect_count := 0, last_update := some 0, total_messages := 7,
          last_price := some 27100, symbol := "BTCUSDT" } 86400 = true ∧
    ¬ ((86400 : ℤ) - 0 < 300) ∧
    is_healthy
        { running := false, is_connected := true, consecutive_errors := 0,
          reconnect_count := 0, last_update := some 0, total_messages := 7,
          last_price := some 27100, symbol := "BTCUSDT" } 100 = false ∧
    is_healthy
        { running := true, is_connected := false, consecutive_errors := 0,
          reconnect_count := 0, last_update := some 0, total_messages := 7,
          last_price := some 27100, symbol := "BTCUSDT" } 100 = false ∧
    is_healthy
        { running := true, is_connected := true, consecutive_errors := 0,
          reconnect_count := 0, last_update := none, total_messages := 0,
          last_price := none, symbol := "BTCUSDT" } 100 = false := by
  refine ⟨?_, by decide, ?_, ?_, ?_⟩ <;> decide

/-! ### Message handling (src/connectors/bybit/websocket.py lines 162-261)

A decoded JSON document.  An inbound payload is modelled by its
`json.loads` outcome: `none` for a malformed (non-parseable) payload —
`json.loads` raised `JSONDecodeError` — and `some j` for a document. -/

inductive Json
  | null
  | bool (b : Bool)
  | num (q : ℚ)
  | str (s : String)
  | arr (elems : List Json)
  | obj (fields : List (String × Json))

/-- Python dict lookup `d.get(key)` on a decoded JSON object (keys are
unique after `json.loads`; first match). -/
def jsonGet (fields : List (String × Json)) (key : String) : Option Json :=
  match fields with
  | [] => none
  | (k, v) :: rest => if k = key then some v else jsonGet rest key

/-- Python truthiness of a decoded JSON value (`if not price_str:`). -/
def jsonTruthy : Json → Bool
  | Json.null => false
  | Json.bool b => b
  | Json.num q => decide (q ≠ 0)
  | Json.str s => decide (s ≠ "")
  | Json.arr l => !l.isEmpty
  | Json.obj l => !l.isEmpty

/-- `BybitWebSocketConnector._is_ticker_data` (lines 224-231). -/
def is_ticker_data (data : Json) : Bool :=
  match data with
  | Json.obj fields =>
      match jsonGet fields "data" with
      | some (Json.obj inner) => (jsonGet inner "lastPrice").isSome
      | _ => false
  | _ => false

/-- Value of one decimal-digit character. -/
def digitVal (c : Char) : ℕ := c.toNat - '0'.toNat

/-- Natural number denoted by a digit string. -/
def natOfDigits (l : List Char) : ℕ :=
  l.foldl (fun acc c => acc * 10 + digitVal c) 0

/-- Model of Python `float()` restricted to the values a decoded ticker
field can carry: numbers pass through, `"[+-]?digits[.digits]?"` strings
parse as decimals (Bybit sends prices as such strings; `float` also
accepts exponents/inf/whitespace, never produced here), booleans coerce,
anything else raises (`ValueError` for bad strings, `TypeError` for
null/containers). -/
def py_float (j : Json) : Except PyError ℚ :=
  match j with
  | Json.num q => Except.ok q
  | Json.bool b => Except.ok (if b then 1 else 0)
  | Json.str s =>
      let cs := s.toList
      let sign : ℚ := if cs.take 1 = ['-'] then -1 else 1
      let body := if cs.take 1 = ['-'] ∨ cs.take 1 = ['+'] then cs.drop 1 else cs
      let digits := body.takeWhile Char.isDigit
      let rest := body.dropWhile Char.isDigit
      if rest = [] then
        if digits = [] then Except.error (PyError.valueError s)
        else Except.ok (sign * natOfDigits digits)
      else if rest.take 1 = ['.'] ∧ (rest.drop 1).all Char.isDigit ∧
              ¬ (digits = [] ∧ rest.drop 1 = []) then
        Except.ok (sign * ((natOfDigits digits : ℚ) +
          (natOfDigits (rest.drop 1) : ℚ) / (10 : ℚ) ^ (rest.drop 1).length))
      else Except.error (PyError.valueError s)
  | _ => Except.error (PyError.valueError "TypeError")

/-- Events emitted through `_emit_event` by the Bybit connector. -/
inductive Event
  | connected (symbol : String)
  | price_update (symbol : String) (price : ℚ) (timestamp : ℤ)
  deriving DecidableEq, Repr

/-- `BybitWebSocketConnector._handle_ticker_data` (lines 233-261): read
`data["data"]["lastPrice"]`, skip falsy values, convert with `float`,
store `last_price` and emit a `price_update` event; `ValueError` (bad
string) is caught locally, `TypeError` escapes into `_handle_message`'s
generic handler — either way the tick is dropped without an event. -/
def handle_ticker_data (st : BybitState) (now : ℤ) (data : Json) :
    BybitState × List Event :=
  match data with
  | Json.obj fields =>
      match jsonGet fields "data" with
      | some (Json.obj ticker) =>
          let price_str := (jsonGet ticker "lastPrice").getD Json.null
          if ¬ jsonTruthy price_str then (st, [])
          else
            match py_float price_str with
            | Except.ok price =>
                ({ st with last_price := some price },
                 [Event.price_update st.symbol price now])
            | Except.error _ => (st, [])
      | _ => (st, [])
  | _ => (st, [])

/-- `BybitWebSocketConnector._handle_message` (lines 162-222): a payload
that fails `json.loads` hits the `JSONDecodeError` handler — logged only,
no state change, nothing raised to the caller; a decoded document bumps
`total_messages` and `last_update`, then ticker documents go through
`_handle_ticker_data` and every other document is only logged. -/
def handle_message (st : BybitState) (now : ℤ) (msg : Option Json) :
    BybitState × List Event :=
  match msg with
  | none => (st, [])
  | some data =>
      let st' := { st with total_messages := st.total_messages + 1,
                           last_update := some now }
      if is_ticker_data data then handle_ticker_data st' now data
      else (st', [])

/-- Successive `_handle_message` calls of the receive loop, collecting all
emitted events. -/
def process_messages (now : ℤ) :
    BybitState → List (Option Json) → BybitState × List Event
  | st, [] => (st, [])
  | st, m :: ms =>
      let (st', evs) := handle_message st now m
      let (st'', rest) := process_messages now st' ms
      (st'', evs ++ rest)

/-- A tick message as Bybit sends it: `{topic, type, data: {lastPrice: s, ...}}`. -/
def tick_message (s : String) : Json :=
  Json.obj [("topic", Json.str "tickers.BTCUSDT"),
            ("type", Json.str "snapshot"),
            ("ts", Json.num 0),
            ("data", Json.obj [("symbol", Json.str "BTCUSDT"),
                               ("lastPrice", Json.str s)])]

/-- C8: a malformed payload leaves the state — in particular the `running`
and `is_connected` flags the receive loop tests — completely unchanged and
emits nothing; after any number of malformed payloads a valid tick whose
price string parses is still processed and still emits its `price_update`
event. -/
theorem malformed_payloads_harmless (st : BybitState) (now : ℤ)
    (ms : List (Option Json)) (hms : ∀ m ∈ ms, m = none)
    (s : String) (p : ℚ) (hp : py_float (Json.str s) = Except.ok p)
    (hne : s ≠ "") :
    handle_message st now none = (st, []) ∧
    process_messages now st (ms ++ [some (tick_message s)]) =
      ({ st with total_messages := st.total_messages + 1,
                 last_update := some now, last_price := some p },
       [Event.price_update st.symbol p now]) := by
  refine ⟨rfl, ?_⟩
  have htick : handle_message st now (some (tick_message s)) =
      ({ st with total_messages := st.total_messages + 1,
                 last_update := some now, last_price := some p },
       [Event.price_update st.symbol p now]) := by
    have hticker : is_ticker_data (tick_message s) = true := by
      simp [is_ticker_data, tick_message, jsonGet]
    simp only [handle_message]
    rw [if_pos hticker]
    simp [handle_ticker_data, tick_message, jsonGet, jsonTruthy, hne, hp]
  induction ms with
  | nil =>
      simp only [List.nil_append, process_messages]
      rw [htick]
      simp [process_messages]
  | cons m ms ih =>
      have hm : m = none := hms m (List.mem_cons_self m ms)
      subst hm
      simp only [List.cons_append, process_messages, handle_message]
      exact ih (fun m hm => hms m (List.mem_cons_of_mem _ hm))

/-- Witness for C8: two malformed payloads followed by a real tick with
price string "27123". -/
theorem malformed_payloads_harmless_witness :
    ((∀ m ∈ ([none, none] : List (Option Json)), m = none) ∧
      py_float (Json.str "27123") = Except.ok (27123 : ℚ) ∧
      "27123" ≠ "") ∧
    process_messages 1700000000
        { running := true, is_connected := true, consecutive_errors := 0,
          reconnect_count := 0, last_update := none, total_messages := 0,
          last_price := none, symbol := "BTCUSDT" }
        ([none, none] ++ [some (tick_message "27123")]) =
      ({ running := true, is_connected := true, consecutive_errors := 0,
         reconnect_count := 0, last_update := some 1700000000,
         total_messages := 1, last_price := some (27123 : ℚ),
         symbol := "BTCUSDT" },
       [Event.price_update "BTCUSDT" (27123 : ℚ) 1700000000]) := by
  have hp : py_float (Json.str "27123") = Except.ok (27123 : ℚ) := by
    have h0 : py_float (Json.str "27123") =
        Except.ok ((1 : ℚ) * ((27123 : ℕ) : ℚ)) := rfl
    rw [h0]
    norm_num
  refine ⟨⟨by simp, hp, by decide⟩, ?_⟩
  have h := (malformed_payloads_harmless
    { running := true, is_connected := true, consecutive_errors := 0,
      reconnect_count := 0, last_update := none, total_messages := 0,
      last_price := none, symbol := "BTCUSDT" } 1700000000
    [none, none] (by simp) "27123" (27123 : ℚ) hp (by decide)).2
  simpa using h

/-! ### Event dispatch (src/connectors/base.py lines 40-57)

The callback dict `self.callbacks` is an association list keyed by event
type (insertion order, unique keys, as a Python dict).  A registered
callback is modelled by its behaviour on the payload: `.ok` it returned,
`.error e` it raised exception `e`. -/

/-- A subscriber callback on payloads of type `α`. -/
def Callback (α : Type) : Type := α → Except String Unit

/-- Association-list lookup, the Python dict access. -/
def assocGet {α : Type} : List (String × α) → String → Option α
  | [], _ => none
  | (k, v) :: rest, key => if k = key then some v else assocGet rest key

/-- Association-list store under a key (replaces the existing entry or
appends a new one, preserving dict semantics). -/
def assocSet {α : Type} : List (String × α) → String → α → List (String × α)
  | [], key, v => [(key, v)]
  | (k, w) :: rest, key, v =>
      if k = key then (k, v) :: rest else (k, w) :: assocSet rest key v

/-- `BaseWebSocketConnector.add_callback` (src/connectors/base.py lines
40-45): create the key's list if absent, then append the callback. -/
def add_callback {α : Type} (callbacks : List (String × List (Callback α)))
    (event_type : String) (cb : Callback α) :
    List (String × List (Callback α)) :=
  assocSet callbacks event_type ((assocGet callbacks event_type).getD [] ++ [cb])

/-- One loop iteration of `_emit_event`: run the callback inside
`try/except`; the result records whether an exception was caught (and
logged). -/
def run_callback {α : Type} (cb : Callback α) (data : α) : Option String :=
  match cb data with
  | Except.ok _ => none
  | Except.error e => some e

/-- The `for callback in self.callbacks[event_type]` loop body of
`_emit_event`, collecting the invocation trace: one entry per callback,
in list order. -/
def emit_event_go {α : Type} (data : α) : List (Callback α) → List (Option String)
  | [] => []
  | cb :: rest => run_callback cb data :: emit_event_go data rest

/-- `BaseWebSocketConnector._emit_event` (src/connectors/base.py lines
47-57): nothing happens when the event type has no registry entry. -/
def emit_event {α : Type} (callbacks : List (String × List (Callback α)))
    (event_type : String) (data : α) : List (Option String) :=
  match assocGet callbacks event_type with
  | some cbs => emit_event_go data cbs
  | none => []

/-- C9: with callbacks `cbs` registered for the type, `_emit_event`'s
invocation trace has exactly one entry per callback, in registration
order, each entry the outcome of that callback alone (an exception is
caught, recorded, and never escapes); consequently the callbacks
registered after a raising one still all run; and `add_callback` appends
at the end, so list order is registration order. -/
theorem emit_event_isolates {α : Type}
    (callbacks : List (String × List (Callback α))) (event_type : String)
    (data : α) (cbs : List (Callback α))
    (h : assocGet callbacks event_type = some cbs) :
    emit_event callbacks event_type data =
      cbs.map (fun cb => run_callback cb data) ∧
    (∀ pre cb post, cbs = pre ++ cb :: post →
      emit_event callbacks event_type data =
        pre.map (fun c => run_callback c data) ++
          run_callback cb data :: post.map (fun c => run_callback c data)) ∧
    (∀ cb, assocGet (add_callback callbacks event_type cb) event_type =
      some (cbs ++ [cb])) := by
  have hgo : ∀ l : List (Callback α),
      emit_event_go data l = l.map (fun cb => run_callback cb data) := by
    intro l
    induction l with
    | nil => rfl
    | cons c rest ih => simp [emit_event_go, ih]
  have hmain : emit_event callbacks event_type data =
      cbs.map (fun cb => run_callback cb data) := by
    unfold emit_event
    rw [h]
    exact hgo cbs
  refine ⟨hmain, ?_, ?_⟩
  · intro pre cb post hsplit
    rw [hmain, hsplit]
    simp
  · intro cb
    unfold add_callback
    rw [h]
    have hset : ∀ (l : List (String × List (Callback α))) (v : List (Callback α)),
        assocGet l event_type = some cbs →
        assocGet (assocSet l event_type v) event_type = some v := by
      intro l
      induction l with
      | nil => intro v hv; cases hv
      | cons p rest ih =>
          intro v hv
          obtain ⟨k, w⟩ := p
          by_cases hk : k = event_type
          · subst hk
            simp [assocSet, assocGet]
          · simp only [assocGet, if_neg hk] at hv
            simp [assocSet, assocGet, hk, ih _ hv]
    simpa using hset callbacks _ h

/-- Concrete subscriber that raises. -/
def cb_raises : Callback ℚ := fun _ => Except.error "boom"

/-- Concrete subscriber that returns normally. -/
def cb_returns : Callback ℚ := fun _ => Except.ok ()

/-- Witness for C9: a raising callback registered before a normal one —
both are invoked, in order, and the trace records the caught exception. -/
theorem emit_event_isolates_witness :
    assocGet [("price_update", [cb_raises, cb_returns])] "price_update" =
      some [cb_raises, cb_returns] ∧
    emit_event [("price_update", [cb_raises, cb_returns])] "price_update"
        (27100 : ℚ) = [some "boom", none] := by
  have h : assocGet [("price_update", [cb_raises, cb_returns])] "price_update" =
      some [cb_raises, cb_returns] := by
    simp [assocGet]
  refine ⟨h, ?_⟩
  have hm := (emit_event_isolates [("price_update", [cb_raises, cb_returns])]
    "price_update" (27100 : ℚ) [cb_raises, cb_returns] h).1
  rw [hm]
  simp [run_callback, cb_raises, cb_returns]

/-! ### Telegram connector stats (src/connectors/telegram/bot.py lines
10-34 and 177-191) -/

/-- Python `str.replace(old, new)` on character lists: scan left to right,
replace each non-overlapping occurrence of `pat` and continue after it.
The fuel argument (initialised to the string length, enough for every run
since each step consumes at least one character when `pat ≠ []`) makes the
recursion structural; Python's empty-pattern behaviour is not modelled —
the call site guarantees a non-empty token. -/
def str_replace_go (pat rep : List Char) : ℕ → List Char → List Char
  | _, [] => []
  | 0, s => s
  | fuel + 1, c :: cs =>
      if pat.isPrefixOf (c :: cs) then
        rep ++ str_replace_go pat rep fuel ((c :: cs).drop pat.length)
      else
        c :: str_replace_go pat rep fuel cs

/-- `s.replace(pat, rep)`. -/
def str_replace (s pat rep : List Char) : List Char :=
  str_replace_go pat rep s.length s

/-- State of `TelegramConnector`: the token and ids set in `__init__`, the
counters of the statistics block; `last_message_time` is stored as its
`isoformat()` rendering, the only form `get_stats` uses. -/
structure TelegramState where
  bot_token : List Char
  chat_id : String
  is_connected : Bool
  messages_sent : ℕ
  messages_failed : ℕ
  last_message_time : Option String

/-- `self.api_url = f"https://api.telegram.org/bot{self.bot_token}"`
(src/connectors/telegram/bot.py line 27). -/
def api_url (st : TelegramState) : List Char :=
  "https://api.telegram.org/bot".toList ++ st.bot_token

/-- The dict returned by `TelegramConnector.get_stats`. -/
structure TelegramStats where
  name : String
  is_connected : Bool
  messages_sent : ℕ
  messages_failed : ℕ
  success_rate : ℚ
  last_message_time : Option String
  chat_id : String
  api_url : List Char

/-- `TelegramConnector.get_stats` (src/connectors/telegram/bot.py lines
177-191); the `api_url` entry is
`self.api_url.replace(self.bot_token, '*****')`. -/
def get_stats (st : TelegramState) : TelegramStats :=
  { name := "Telegram"
    is_connected := st.is_connected
    messages_sent := st.messages_sent
    messages_failed := st.messages_failed
    success_rate :=
      if st.messages_sent + st.messages_failed > 0 then
        (st.messages_sent : ℚ) / ((st.messages_sent : ℚ) + (st.messages_failed : ℚ))
      else 0
    last_message_time := st.last_message_time
    chat_id := st.chat_id
    api_url := str_replace (api_url st) st.bot_token "*****".toList }

/-- A prefix of the replacement output that contains no mask character
must already be a prefix of the input: replacements contribute only
`'*'`s, so a star-free prefix survives from the original text. -/
theorem starfree_prefix_of_prefix_replace (pat rep : List Char)
    (hrep : ∀ c ∈ rep, c = '*') (hrepne : rep ≠ []) :
    ∀ (fuel : ℕ) (s q : List Char), '*' ∉ q →
      q <+: str_replace_go pat rep fuel s → q <+: s := by
  intro fuel
  induction fuel with
  | zero =>
      intro s q _ hpre
      cases s with
      | nil => simpa [str_replace_go] using hpre
      | cons c cs => simpa [str_replace_go] using hpre
  | succ fuel ih =>
      intro s q hq hpre
      cases s with
      | nil => simpa [str_replace_go] using hpre
      | cons c cs =>
          by_cases hp : pat.isPrefixOf (c :: cs)
          · simp only [str_replace_go, if_pos hp] at hpre
            cases q with
            | nil => exact List.nil_prefix
            | cons q0 qt =>
                obtain ⟨r0, rt, hr⟩ : ∃ r0 rt, rep = r0 :: rt := by
                  cases rep with
                  | nil => exact absurd rfl hrepne
                  | cons a b => exact ⟨a, b, rfl⟩
                rw [hr, List.cons_append] at hpre
                have h0 : q0 = r0 := (List.cons_prefix_cons.mp hpre).1
                have hstar : r0 = '*' :=
                  hrep r0 (by rw [hr]; exact List.mem_cons_self r0 rt)
                exact absurd
                  (List.mem_cons.mpr (Or.inl (h0.trans hstar).symm)) hq
          · simp only [str_replace_go, if_neg hp] at hpre
            cases q with
            | nil => exact List.nil_prefix
            | cons q0 qt =>
                obtain ⟨h0, htl⟩ := List.cons_prefix_cons.mp hpre
                have hqt : '*' ∉ qt := fun hmem =>
                  hq (List.mem_cons_of_mem _ hmem)
                exact List.cons_prefix_cons.mpr ⟨h0, ih cs qt hqt htl⟩

/-- A non-empty, star-free pattern never occurs in the output of replacing
it with an all-star mask: occurrences cannot touch a mask block, cannot
live inside preserved text (the scan replaces the leftmost occurrence
first), and cannot span both. -/
theorem pat_not_infix_replace (pat rep : List Char)
    (hrep : ∀ c ∈ rep, c = '*') (hrepne : rep ≠ [])
    (hpat : '*' ∉ pat) (hpatne : pat ≠ []) :
    ∀ (fuel : ℕ) (s : List Char), s.length ≤ fuel →
      ¬ pat <:+: str_replace_go pat rep fuel s := by
  intro fuel
  induction fuel with
  | zero =>
      intro s hlen hinf
      have hs : s = [] := List.length_eq_zero.mp (Nat.le_zero.mp hlen)
      subst hs
      rw [show str_replace_go pat rep 0 [] = [] from rfl] at hinf
      exact hpatne (List.infix_nil.mp hinf)
  | succ fuel ih =>
      intro s hlen hinf
      cases s with
      | nil =>
          rw [show str_replace_go pat rep (fuel + 1) [] = [] from rfl] at hinf
          exact hpatne (List.infix_nil.mp hinf)
      | cons c cs =>
          by_cases hp : pat.isPrefixOf (c :: cs)
          · simp only [str_replace_go, if_pos hp] at hinf
            obtain ⟨u, v, huv⟩ := hinf
            have hbig :
                rep ++ str_replace_go pat rep fuel ((c :: cs).drop pat.length)
                  = u ++ (pat ++ v) := by
              rw [← huv, List.append_assoc]
            have hdroplen :
                ((c :: cs).drop pat.length).length ≤ fuel := by
              rw [List.length_drop]
              have hpl : 1 ≤ pat.length := by
                cases pat with
                | nil => exact absurd rfl hpatne
                | cons a b => simp
              simp only [List.length_cons] at hlen ⊢
              omega
            by_cases hlen2 : rep.length ≤ u.length
            · have hu_pref :
                  u <+: rep ++ str_replace_go pat rep fuel
                    ((c :: cs).drop pat.length) := ⟨pat ++ v, hbig.symm⟩
              have hru : rep <+: u :=
                List.prefix_of_prefix_length_le (List.prefix_append _ _)
                  hu_pref hlen2
              obtain ⟨u', rfl⟩ := hru
              rw [List.append_assoc] at hbig
              have hX := List.append_cancel_left hbig
              exact ih _ hdroplen ⟨u', v, by rw [hX, ← List.append_assoc]⟩
            · push_neg at hlen2
              have hu_pref :
                  u <+: rep ++ str_replace_go pat rep fuel
                    ((c :: cs).drop pat.length) := ⟨pat ++ v, hbig.symm⟩
              have hur : u <+: rep :=
                List.prefix_of_prefix_length_le hu_pref
                  (List.prefix_append _ _) (le_of_lt hlen2)
              obtain ⟨m, hm⟩ := hur
              have hmne : m ≠ [] := by
                intro h
                subst h
                rw [List.append_nil] at hm
                rw [hm] at hlen2
                exact lt_irrefl _ hlen2
              have hpv : pat ++ v =
                  m ++ str_replace_go pat rep fuel ((c :: cs).drop pat.length) := by
                have hbig' := hbig
                rw [← hm, List.append_assoc] at hbig'
                have h2 := (List.append_cancel_left hbig').symm
                rwa [hm] at h2
              obtain ⟨p0, pt, hpat_eq⟩ : ∃ p0 pt, pat = p0 :: pt := by
                cases pat with
                | nil => exact absurd rfl hpatne
                | cons a b => exact ⟨a, b, rfl⟩
              obtain ⟨m0, mt, hm_eq⟩ : ∃ m0 mt, m = m0 :: mt := by
                cases m with
                | nil => exact absurd rfl hmne
                | cons a b => exact ⟨a, b, rfl⟩
              rw [hpat_eq, hm_eq] at hpv
              simp only [List.cons_append] at hpv
              have hhead : p0 = m0 := by
                injection hpv
              have hm0 : m0 = '*' := hrep m0 (by rw [← hm, hm_eq]; simp)
              refine hpat ?_
              rw [hpat_eq]
              exact List.mem_cons.mpr (Or.inl (hhead.trans hm0).symm)
          · simp only [str_replace_go, if_neg hp] at hinf
            rcases List.infix_cons_iff.mp hinf with hpre | hint
            · have heq : c :: str_replace_go pat rep fuel cs
                  = str_replace_go pat rep (fuel + 1) (c :: cs) := by
                simp only [str_replace_go]
                rw [if_neg hp]
              rw [heq] at hpre
              have hps :=
                starfree_prefix_of_prefix_replace pat rep hrep hrepne
                  (fuel + 1) (c :: cs) pat hpat hpre
              exact hp (List.isPrefixOf_iff_prefix.mpr hps)
            · have hcs : cs.length ≤ fuel := by
                simp only [List.length_cons] at hlen
                omega
              exact ih cs hcs hint

/-- C10 counterexample: the claim's "the secret token value never appears"
fails for the non-empty token "**": masking it inside the api_url produces
"...bot*****", and "**" occurs in the mask itself. -/
theorem token_mask_counterexample :
    "**".toList ≠ [] ∧
    "**".toList <:+:
      (get_stats { bot_token := "**".toList, chat_id := "42",
                   is_connected := true, messages_sent := 0,
                   messages_failed := 0, last_message_time := none }).api_url := by
  constructor
  · decide
  · decide

/-- C10 amended: `get_stats` reports `api_url` with every occurrence of
the token replaced by `'*****'` (Python `str.replace` semantics); for a
non-empty token containing no `'*'` — every real Telegram token — the
token value never appears as a substring of the reported `api_url`. -/
theorem token_never_in_stats (st : TelegramState)
    (hne : st.bot_token ≠ []) (hstar : '*' ∉ st.bot_token) :
    ¬ st.bot_token <:+: (get_stats st).api_url := by
  show ¬ st.bot_token <:+:
    str_replace (api_url st) st.bot_token ("*****".toList)
  unfold str_replace
  exact pat_not_infix_replace st.bot_token "*****".toList
    (by decide) (by decide) hstar hne _ _ le_rfl

/-- Witness for C10 at a realistic token. -/
theorem token_never_in_stats_witness :
    ("123456:AAtokenXYZ".toList ≠ [] ∧ '*' ∉ "123456:AAtokenXYZ".toList) ∧
    ¬ "123456:AAtokenXYZ".toList <:+:
      (get_stats { bot_token := "123456:AAtokenXYZ".toList, chat_id := "42",
                   is_connected := true, messages_sent := 3,
                   messages_failed := 1,
                   last_message_time := none }).api_url :=
  ⟨⟨by decide, by decide⟩,
   token_never_in_stats
     { bot_token := "123456:AAtokenXYZ".toList, chat_id := "42",
       is_connected := true, messages_sent := 3, messages_failed := 1,
       last_message_time := none } (by decide) (by decide)⟩

end BybitBot
